import Mathlib

/-!
Shallow embedding of the Thunderstorm collector's collection engine
(go/collector.go together with the platform gettime files): the walker, the
metadata and content filters, the dedup cache, the throttle gate, the upload
pipeline with retry/backpressure handling, and the statistics counters.

Modelling conventions:
* `time.Time` instants and `time.Duration` values are nanosecond counts (`Int`);
  `t.After(u)` is `u < t`.
* File metadata (`os.FileInfo`) is a record of exactly the fields the collector
  reads: the regular-file mode bit, the size, and the timestamp list that the
  platform-specific `getTimes` returns (mtime, plus ctime/birthtime where the
  platform exposes them).
* The SHA-256 digest from crypto/sha256 is abstracted as an explicit function
  parameter `hash : List UInt8 → List UInt8`; the dedup code only ever feeds a
  file's bytes to it and compares digests for equality.
* The HTTP transport is a response script (`List ServerResponse`) consumed one
  entry per POST; an exhausted script behaves as an unreachable server
  (transport-level error), matching `http.Post` returning a non-nil error.
* The Go walker and the worker goroutines communicate over an unbuffered
  channel; the model performs the walk first and processes the resulting queue
  sequentially. Every statistics counter is incremented atomically in Go and
  each queued file is owned by exactly one worker, so the final counter values
  proved here do not depend on the interleaving.
* Exclude-glob matching (doublestar) is abstracted as a per-node boolean
  (`excludeGlobMatch`): the claims under verification quantify over match
  outcomes, not over glob syntax.
* Wall-clock timing counters (timeWalking, timeReading, ...) and debug logging
  are not modelled; sleeps and I/O show up as trace events instead.
-/

namespace Thunderstorm

/-- One nanosecond, the unit of `time.Duration` in the model. -/
def nanosecond : Int := 1

/-- `time.Second` in nanoseconds. -/
def second : Int := 1000000000

/-- collector.go:269 — maximum number of retry attempts for failed uploads. -/
def maxRetries : Nat := 3

/-- collector.go:270 — base delay for exponential backoff (4 seconds). -/
def baseRetryDelay : Int := 4 * second

/-- collector.go:271 — maximum number of entries in the file hash cache before clearing. -/
def maxHashCacheSize : Nat := 10000

/-- `http.StatusServiceUnavailable`. -/
def statusServiceUnavailable : Nat := 503

/-- `http.StatusOK`. -/
def statusOK : Nat := 200

/-- The fields of `os.FileInfo` that the collector reads. `times` is the list
returned by the platform-specific `getTimes` (gettime_default.go returns
`[mtime]`, the linux variant `[mtime, ctime]`, the darwin/freebsd/netbsd
variant `[mtime, ctime, birthtime]`). -/
structure FileMeta where
  isRegular : Bool
  size : Int
  times : List Int
deriving Repr, DecidableEq

/-- A file as the worker sees it: its path, its metadata, its byte content,
and whether `os.Open` fails on it. -/
structure FileDesc where
  path : String
  meta : FileMeta
  content : List UInt8
  openFails : Bool
deriving Repr, DecidableEq

/-- The `CollectorConfig` fields used by the collection engine
(collector.go:25-42). Fields owned by the excluded CLI layer (server address,
sync flag, thread count, source, debug) are omitted: they do not influence the
properties modelled here. -/
structure CollectorConfig where
  thresholdTime : Int
  fileExtensions : List String
  maxFileSize : Int
  magicHeaders : List (List UInt8)
  allFilesystems : Bool
  minUploadPeriod : Int
  dryRun : Bool
  minCacheFileSize : Int
deriving Repr, DecidableEq

/-- The counters of `CollectionStatistics` (collector.go:66-89). The
cumulative per-phase wall-clock timings are not modelled. -/
structure CollectionStatistics where
  filesDiscovered : Nat := 0
  skippedTooBig : Nat := 0
  skippedWrongType : Nat := 0
  skippedTooOld : Nat := 0
  skippedIrregular : Nat := 0
  skippedDuplicate : Nat := 0
  skippedDirectories : Nat := 0
  skippedExcluded : Nat := 0
  uploadedFiles : Nat := 0
  uploadErrors : Nat := 0
  fileErrors : Nat := 0
deriving Repr, DecidableEq

/-- The platform timestamp seam: `getTimes` returns the timestamps the
platform exposes; the model carries that list in the metadata. -/
def getTimes (info : FileMeta) : List Int := info.times

/-- NewCollector (collector.go:99-103): the length of the longest configured
magic header. -/
def magicHeaderExtractionLength (c : CollectorConfig) : Nat :=
  c.magicHeaders.foldl (fun acc h => if h.length > acc then h.length else acc) 0

/-- The too-old loop of both metadata checks (collector.go:398-404 and
424-430): `isTooOld` stays true unless some available timestamp is strictly
after the threshold (`time.Time.After`). -/
def isTooOld (c : CollectorConfig) (info : FileMeta) : Bool :=
  ! (getTimes info).any (fun fileTime => decide (c.thresholdTime < fileTime))

/-- collector.go:393-414 — quick metadata check run by the walker before
queuing, incrementing the matching skip counter. -/
def isFileExcludedDueToMetadataQuick (c : CollectorConfig) (info : FileMeta)
    (s : CollectionStatistics) : Bool × CollectionStatistics :=
  if !info.isRegular then
    (true, { s with skippedIrregular := s.skippedIrregular + 1 })
  else if isTooOld c info then
    (true, { s with skippedTooOld := s.skippedTooOld + 1 })
  else if c.maxFileSize > 0 && c.maxFileSize < info.size then
    (true, { s with skippedTooBig := s.skippedTooBig + 1 })
  else
    (false, s)

/-- collector.go:416-446 — the worker-side metadata check; identical logic to
the quick check plus a reason string. -/
def isFileExcludedDueToMetadata (c : CollectorConfig) (info : FileMeta)
    (s : CollectionStatistics) : Bool × String × CollectionStatistics :=
  if !info.isRegular then
    (true, "irregular file", { s with skippedIrregular := s.skippedIrregular + 1 })
  else if isTooOld c info then
    (true, "too old", { s with skippedTooOld := s.skippedTooOld + 1 })
  else if c.maxFileSize > 0 && c.maxFileSize < info.size then
    (true, "too big", { s with skippedTooBig := s.skippedTooBig + 1 })
  else
    (false, "", s)

/-- `strings.HasSuffix` loop of collector.go:455-461: does some configured
extension suffix-match the path (case-sensitive)? Suffix comparison is done
on the character sequence, which coincides with Go's byte-wise comparison on
the ASCII extensions the collector is configured with. -/
def extensionWanted (c : CollectorConfig) (path : String) : Bool :=
  c.fileExtensions.any (fun extension => extension.data.isSuffixOf path.data)

/-- The guard of collector.go:467: the positioned magic-header read happens
exactly when at least one magic header is configured and no extension
matched. -/
def magicReadOccurs (c : CollectorConfig) (path : String) : Bool :=
  decide (c.magicHeaders.length > 0) && ! extensionWanted c path

/-- `f.ReadAt(buffer, 0)` (collector.go:468-469) on a file with the given
bytes: returns the bytes read and whether the read reports an error.
`ReadAt` returns a non-nil error exactly when it reads fewer than
`len(buffer)` bytes. -/
def readAtFromStart (content : List UInt8) (bufLen : Nat) : List UInt8 × Bool :=
  let readLength := min bufLen content.length
  (content.take readLength, decide (readLength < bufLen))

/-- collector.go:468-480 — the magic-header comparison: on a read error the
comparison loop is skipped and no header matches; otherwise `bytes.HasPrefix`
against each configured header. -/
def magicHeaderWantedCheck (c : CollectorConfig) (content : List UInt8) : Bool :=
  let (headerBuffer, readErr) := readAtFromStart content (magicHeaderExtractionLength c)
  if readErr then false
  else c.magicHeaders.any (fun magicHeader => magicHeader.isPrefixOf headerBuffer)

/-- The exclusion condition of collector.go:484: filters are configured but
neither the extension nor a magic header matched. -/
def wrongTypeExcluded (c : CollectorConfig) (info : FileDesc) : Bool :=
  let extWanted := extensionWanted c info.path
  let magicWanted :=
    if magicReadOccurs c info.path then magicHeaderWantedCheck c info.content else false
  !extWanted && !magicWanted &&
    (decide (c.magicHeaders.length > 0) || decide (c.fileExtensions.length > 0))

/-- Observable actions of one worker, in program order. Sleep durations are
nanoseconds. -/
inductive Ev where
  | openFile : Ev
  | magicRead : Ev
  | hashContent : Ev
  | throttleCall : Ev
  | netPost : Ev
  | sleepBackoff : Int → Ev
  | sleepRetryAfter : Int → Ev
deriving Repr, DecidableEq

/-- The mutable state shared by the workers: the statistics counters, the
dedup cache (`fileHashCache`, a set of digests modelled as a list) and its
insertion counter (`fileHashCacheCount`). -/
structure WorkerState where
  stats : CollectionStatistics
  fileHashCache : List (List UInt8)
  fileHashCacheCount : Nat
deriving Repr, DecidableEq

/-- collector.go:454-527 — `isFileExcludedDueToContent`: extension check,
guarded magic-header read, wrong-type exclusion, then (for files above the
minimum cache size) SHA-256 hashing with test-and-insert into the dedup cache
and the coarse cache reset once the insertion counter exceeds
`maxHashCacheSize`. Returns (excluded, new state, events emitted). The
`hash` parameter stands for the crypto/sha256 digest. -/
def isFileExcludedDueToContent (c : CollectorConfig)
    (hash : List UInt8 → List UInt8) (info : FileDesc) (st : WorkerState) :
    Bool × WorkerState × List Ev :=
  let readMagic := magicReadOccurs c info.path
  let evs := if readMagic then [Ev.magicRead] else []
  if wrongTypeExcluded c info then
    (true, { st with stats := { st.stats with
      skippedWrongType := st.stats.skippedWrongType + 1 } }, evs)
  else if info.meta.size > c.minCacheFileSize then
    let fileHash := hash info.content
    let evs := evs ++ [Ev.hashContent]
    if st.fileHashCache.contains fileHash then
      (true, { st with stats := { st.stats with
        skippedDuplicate := st.stats.skippedDuplicate + 1 } }, evs)
    else
      -- LoadOrStore inserted into the current map; the counter is then
      -- incremented and, past the ceiling, the whole map reference is swapped
      -- for an empty one (dropping the fresh insert as well) and the counter
      -- reset to zero (collector.go:505-521).
      let cacheSize := st.fileHashCacheCount + 1
      if cacheSize > maxHashCacheSize then
        (false, { st with fileHashCache := [], fileHashCacheCount := 0 }, evs)
      else
        (false, { st with fileHashCache := (fileHash :: st.fileHashCache),
                          fileHashCacheCount := cacheSize }, evs)
  else
    (false, st, evs)

/-- One scripted answer of the HTTP transport for a single `http.Post`:
either a transport-level error (no response) or an HTTP response with its
status code, its `Retry-After` header value (`""` when the header is absent,
as `Header.Get` reports it) and whether reading the response body fails. -/
inductive ServerResponse where
  | transportError : ServerResponse
  | http : Nat → String → Bool → ServerResponse
deriving Repr, DecidableEq

/-- Decimal digit accumulator for `strconv.Atoi`: `none` on any non-digit. -/
def parseDigits (cs : List Char) : Option Nat :=
  cs.foldl
    (fun acc ch =>
      match acc with
      | none => none
      | some n => if '0' ≤ ch ∧ ch ≤ '9' then some (n * 10 + (ch.toNat - '0'.toNat)) else none)
    (some 0)

/-- `strconv.Atoi`: optional sign followed by at least one decimal digit
(the int64 range check is irrelevant for the modelled inputs and omitted). -/
def atoi (s : String) : Option Int :=
  match s.data with
  | [] => none
  | '+' :: rest => if rest.isEmpty then none else (parseDigits rest).map Int.ofNat
  | '-' :: rest => if rest.isEmpty then none else (parseDigits rest).map (fun n => -(Int.ofNat n))
  | cs => (parseDigits cs).map Int.ofNat

/-- collector.go:358-362 — the 503 cooldown: parse `Retry-After`, defaulting
to 30 seconds when it is missing or unparseable. -/
def retryAfterSeconds (header : String) : Int :=
  match atoi header with
  | some n => n
  | none => 30

/-- The shared transport-error branch of collector.go:344-355: below the
retry ceiling, increment the counter and sleep `baseRetryDelay * 2^retries`
(Go: `baseRetryDelay * (1 << info.retries)` after `info.retries++`) and redo;
at the ceiling, count one upload error and stop. -/
def handleTransportError (retries : Nat) (script : List ServerResponse)
    (st : WorkerState) : Bool × Nat × List ServerResponse × WorkerState × List Ev :=
  if retries < maxRetries then
    (true, retries + 1, script, st,
      [Ev.netPost, Ev.sleepBackoff (baseRetryDelay * 2 ^ (retries + 1))])
  else
    (false, retries, script,
      { st with stats := { st.stats with uploadErrors := st.stats.uploadErrors + 1 } },
      [Ev.netPost])

/-- collector.go:341-389 — the encode-and-send part of the pipeline: throttle
(event emitted by the caller), POST (consuming the next scripted response),
and response classification. Returns (redo, retries, remaining script, state,
events after the throttle point). -/
def sendToThunderstorm (c : CollectorConfig) (retries : Nat)
    (script : List ServerResponse) (st' : WorkerState) :
    Bool × Nat × List ServerResponse × WorkerState × List Ev :=
  match script with
  | [] =>
    -- server unreachable: http.Post returns a non-nil error
    handleTransportError retries [] st'
  | ServerResponse.transportError :: rest =>
    handleTransportError retries rest st'
  | ServerResponse.http statusCode retryAfter bodyReadFails :: rest =>
    if statusCode = statusServiceUnavailable then
      let retryTime := retryAfterSeconds retryAfter
      (true, retries, rest, st',
        [Ev.netPost, Ev.sleepRetryAfter (second * retryTime)])
    else if bodyReadFails then
      (false, retries, rest,
        { st' with stats := { st'.stats with
          uploadErrors := st'.stats.uploadErrors + 1 } },
        [Ev.netPost])
    else if statusCode ≠ statusOK then
      (false, retries, rest,
        { st' with stats := { st'.stats with
          uploadErrors := st'.stats.uploadErrors + 1 } },
        [Ev.netPost])
    else
      (false, retries, rest,
        { st' with stats := { st'.stats with
          uploadedFiles := st'.stats.uploadedFiles + 1 } },
        [Ev.netPost])

/-- collector.go:297-390 — one execution of `uploadToThunderstorm` on a
queued file: worker-side metadata check, open, content filter and dedup,
dry-run short-circuit, throttle, POST, response classification. Returns
(redo, retries, remaining script, state, events). -/
def uploadToThunderstorm (c : CollectorConfig) (hash : List UInt8 → List UInt8)
    (info : FileDesc) (retries : Nat) (script : List ServerResponse)
    (st : WorkerState) : Bool × Nat × List ServerResponse × WorkerState × List Ev :=
  let meta := isFileExcludedDueToMetadata c info.meta st.stats
  if meta.1 then (false, retries, script, { st with stats := meta.2.2 }, [])
  else if info.openFails then
    (false, retries, script,
      { st with stats := { meta.2.2 with fileErrors := meta.2.2.fileErrors + 1 } }, [])
  else
    let content := isFileExcludedDueToContent c hash info { st with stats := meta.2.2 }
    if content.1 then
      (false, retries, script, content.2.1, Ev.openFile :: content.2.2)
    else
      let st' := content.2.1
      let evs := (Ev.openFile :: content.2.2) ++ [Ev.throttleCall]
      if c.dryRun then
        (false, retries, script,
          { st' with stats := { st'.stats with
            uploadedFiles := st'.stats.uploadedFiles + 1 } },
          Ev.openFile :: content.2.2)
      else
        let r := sendToThunderstorm c retries script st'
        (r.1, r.2.1, r.2.2.1, r.2.2.2.1, evs ++ r.2.2.2.2)

/-- The worker redo loop (collector.go:125-129): repeat
`uploadToThunderstorm` while it asks for a redo. Fuel-indexed; every caller
supplies `pipelineFuel`, which is proved sufficient below. -/
def runRedo (c : CollectorConfig) (hash : List UInt8 → List UInt8)
    (info : FileDesc) :
    Nat → Nat → List ServerResponse → WorkerState →
    WorkerState × List ServerResponse × List Ev
  | 0, _, script, st => (st, script, [])
  | fuel + 1, retries, script, st =>
    let step := uploadToThunderstorm c hash info retries script st
    if step.1 then
      let next := runRedo c hash info fuel step.2.1 step.2.2.1 step.2.2.2.1
      (next.1, next.2.1, step.2.2.2.2 ++ next.2.2)
    else
      (step.2.2.2.1, step.2.2.1, step.2.2.2.2)

/-- Fuel bound for the redo loop: every redo either consumes one scripted
response or (on an empty script) raises the retry counter, so
`script.length + maxRetries + 2` iterations always suffice. -/
def pipelineFuel (script : List ServerResponse) : Nat :=
  script.length + maxRetries + 2

/-- One queued file processed to pipeline termination, starting with a fresh
retry counter (collector.go:196 queues `infoWithPath{info, path, 0}`). -/
def processFile (c : CollectorConfig) (hash : List UInt8 → List UInt8)
    (info : FileDesc) (script : List ServerResponse) (st : WorkerState) :
    WorkerState × List ServerResponse × List Ev :=
  runRedo c hash info (pipelineFuel script) 0 script st

/-- The worker pool draining the queue. Files are processed in queue order;
see the module comment for why this sequentialisation is sound for the
counter-level properties proved here. -/
def processQueue (c : CollectorConfig) (hash : List UInt8 → List UInt8) :
    List FileDesc → List ServerResponse → WorkerState →
    WorkerState × List ServerResponse × List Ev
  | [], script, st => (st, script, [])
  | info :: rest, script, st =>
    let r1 := processFile c hash info script st
    let r2 := processQueue c hash rest r1.2.1 r1.1
    (r2.1, r2.2.1, r1.2.2 ++ r2.2.2)

/-- A filesystem subtree as `filepath.Walk` visits it: each node carries
whether some exclude glob matches its path, whether the walk callback
receives an error for it, and (for directories) whether `SkipFilesystem`
classifies it as a pseudo/network filesystem. -/
inductive FsNode where
  | file : FileDesc → Bool → Bool → FsNode
  | dir : Bool → Bool → Bool → List FsNode → FsNode
deriving Repr

mutual

/-- collector.go:168-217 — the walk callback on one node: error entries are
swallowed; an exclude-glob match prunes a directory (counted as a skipped
directory) or skips a file (counted as excluded); surviving non-directories
increment `filesDiscovered` and, if the quick metadata check passes, are
queued; surviving directories are pruned when they sit on a skipped
filesystem (unless `allFilesystems`). -/
def walkNode (c : CollectorConfig) (node : FsNode) (s : CollectionStatistics) :
    CollectionStatistics × List FileDesc :=
  match node with
  | FsNode.file info excludeGlobMatch walkError =>
    if walkError then (s, [])
    else if excludeGlobMatch then
      ({ s with skippedExcluded := s.skippedExcluded + 1 }, [])
    else
      let s := { s with filesDiscovered := s.filesDiscovered + 1 }
      let q := isFileExcludedDueToMetadataQuick c info.meta s
      if q.1 then (q.2, []) else (q.2, [info])
  | FsNode.dir excludeGlobMatch onSkippedFilesystem walkError children =>
    if walkError then (s, [])
    else if excludeGlobMatch then
      ({ s with skippedDirectories := s.skippedDirectories + 1 }, [])
    else if !c.allFilesystems && onSkippedFilesystem then (s, [])
    else walkNodes c children s

/-- The walk over a list of sibling nodes, left to right. -/
def walkNodes (c : CollectorConfig) (nodes : List FsNode)
    (s : CollectionStatistics) : CollectionStatistics × List FileDesc :=
  match nodes with
  | [] => (s, [])
  | node :: rest =>
    let r1 := walkNode c node s
    let r2 := walkNodes c rest r1.1
    (r2.1, r1.2 ++ r2.2)

end

/-- A whole run: walk all root trees from zeroed statistics, then drain the
queue with an empty dedup cache (collector.go `Collect` followed by worker
shutdown). -/
def collect (c : CollectorConfig) (hash : List UInt8 → List UInt8)
    (roots : List FsNode) (script : List ServerResponse) :
    WorkerState × List ServerResponse × List Ev :=
  let (s, queue) := walkNodes c roots {}
  processQueue c hash queue script { stats := s, fileHashCache := [], fileHashCacheCount := 0 }

/-- Mutex and sleep actions of the throttle gate (collector.go:278-295). -/
inductive ThrottleEv where
  | lockAcquire : ThrottleEv
  | lockRelease : ThrottleEv
  | sleep : Int → ThrottleEv
deriving Repr, DecidableEq

/-- The `for` loop of `throttle` (collector.go:280-293) for a positive
minimum upload period: each iteration locks the mutex, reads the clock (the
next entry of `clocks`), and either records the current time and returns
(releasing the mutex) or computes the remaining wait, releases the mutex, and
sleeps outside it before retrying. Returns the emitted events and the
recorded time on success (`none` if the clock readings run out, i.e. the
worker is still waiting). -/
def throttleLoop (period : Int) : Int → List Int → List ThrottleEv × Option Int
  | _, [] => ([], none)
  | lastScanTime, currentTime :: rest =>
    let timePassed := currentTime - lastScanTime
    if timePassed ≥ period then
      ([ThrottleEv.lockAcquire, ThrottleEv.lockRelease], some currentTime)
    else
      let timeUntilNextUpload := period - timePassed
      let next := throttleLoop period lastScanTime rest
      (ThrottleEv.lockAcquire :: ThrottleEv.lockRelease ::
        ThrottleEv.sleep timeUntilNextUpload :: next.1, next.2)

/-- `throttle` (collector.go:278-295): a no-op unless a minimum upload period
is configured. -/
def throttle (c : CollectorConfig) (lastScanTime : Int) (clocks : List Int) :
    List ThrottleEv × Option Int :=
  if c.minUploadPeriod > 0 then throttleLoop c.minUploadPeriod lastScanTime clocks
  else ([], some lastScanTime)

/-- The successive recorded upload times across all workers: each successful
throttle exit updates the shared `lastScanTime`, which seeds the next call. -/
def throttleExits (period : Int) : Int → List (List Int) → List Int
  | _, [] => []
  | lastScanTime, clocks :: more =>
    match throttleLoop period lastScanTime clocks with
    | (_, some t) => t :: throttleExits period t more
    | (_, none) => throttleExits period lastScanTime more

/-- Checks that every sleep in a throttle event trace happens while the mutex
is not held (`depth` = current lock nesting). -/
def sleepsOutsideLock : Nat → List ThrottleEv → Bool
  | _, [] => true
  | depth, ThrottleEv.lockAcquire :: rest => sleepsOutsideLock (depth + 1) rest
  | depth, ThrottleEv.lockRelease :: rest => sleepsOutsideLock (depth - 1) rest
  | depth, ThrottleEv.sleep _ :: rest => decide (depth = 0) && sleepsOutsideLock depth rest

/-- Is this event a network POST? -/
def isPost : Ev → Bool
  | Ev.netPost => true
  | _ => false

/-- Is this event a backoff sleep? -/
def isBackoffSleep : Ev → Bool
  | Ev.sleepBackoff _ => true
  | _ => false

/-- Is this event network I/O or a wait (POST, throttle, or any sleep)? -/
def isNetworkOrWait : Ev → Bool
  | Ev.netPost => true
  | Ev.throttleCall => true
  | Ev.sleepBackoff _ => true
  | Ev.sleepRetryAfter _ => true
  | _ => false

/-- The terminal per-file accounting: every queued file ends in exactly one
of these counters. -/
def pipelineOutcomes (s : CollectionStatistics) : Nat :=
  s.uploadedFiles + s.skippedTooBig + s.skippedTooOld + s.skippedWrongType +
    s.skippedIrregular + s.skippedDuplicate + s.uploadErrors + s.fileErrors

/-! Concrete sample inputs shared by witnesses and counterexamples. -/

/-- A stand-in digest function instantiating the crypto/sha256 seam in
concrete evaluations (dedup only compares digests for equality). -/
def sampleHash : List UInt8 → List UInt8 := fun l => l

/-- A configuration with every filter disabled. -/
def plainConfig : CollectorConfig :=
  { thresholdTime := 0, fileExtensions := [], maxFileSize := 0, magicHeaders := [],
    allFilesystems := false, minUploadPeriod := 0, dryRun := false, minCacheFileSize := 0 }

/-- `plainConfig` with an age threshold of 5. -/
def thresholdConfig : CollectorConfig := { plainConfig with thresholdTime := 5 }

/-- Metadata of a regular file with one timestamp after the threshold 5 and
one before it. -/
def freshMeta : FileMeta := { isRegular := true, size := 0, times := [3, 7] }

/-- Metadata of a regular file with all timestamps at or before threshold 5
(one exactly at it). -/
def staleMeta : FileMeta := { isRegular := true, size := 0, times := [3, 5] }

/-- A small regular file (below any cache threshold) that passes every
filter of `plainConfig`. -/
def smallFile : FileDesc :=
  { path := "small.bin", meta := { isRegular := true, size := 0, times := [1] },
    content := [], openFails := false }

/-- A regular file with five bytes of content, above `plainConfig`'s minimum
cache size of 0. -/
def bigFile : FileDesc :=
  { path := "big.bin", meta := { isRegular := true, size := 5, times := [1] },
    content := [1, 2, 3, 4, 5], openFails := false }

/-- A second file with the same bytes as `bigFile` under a different path. -/
def bigFileCopy : FileDesc := { bigFile with path := "copy.bin" }

/-- The run-initial worker state over zeroed statistics. -/
def initialState : WorkerState :=
  { stats := {}, fileHashCache := [], fileHashCacheCount := 0 }

/-- An HTTP 200 answer with a readable body. -/
def okResponse : ServerResponse := ServerResponse.http 200 "" false

/-- C3, counterexample: a regular file whose single available timestamp
equals the threshold (5) is skipped as too-old by
`isFileExcludedDueToMetadataQuick`, although the claim says a timestamp at
the threshold prevents the too-old skip. -/
theorem claim_C3_counterexample :
    (isFileExcludedDueToMetadataQuick thresholdConfig
      { isRegular := true, size := 0, times := [5] } {}).1 = true ∧
    (isFileExcludedDueToMetadataQuick thresholdConfig
      { isRegular := true, size := 0, times := [5] } {}).2.skippedTooOld = 1 := by
  decide

/-- C3, amended: a regular file with at least one available timestamp
strictly after the threshold is not counted too-old; a file all of whose
available timestamps are at or before the threshold is skipped and counted
too-old. -/
theorem claim_C3_amended (c : CollectorConfig) (info : FileMeta)
    (s : CollectionStatistics) (hreg : info.isRegular = true) :
    ((getTimes info).any (fun t => decide (c.thresholdTime < t)) = true →
      (isFileExcludedDueToMetadataQuick c info s).2.skippedTooOld = s.skippedTooOld) ∧
    ((∀ t ∈ getTimes info, t ≤ c.thresholdTime) →
      (isFileExcludedDueToMetadataQuick c info s).1 = true ∧
      (isFileExcludedDueToMetadataQuick c info s).2.skippedTooOld = s.skippedTooOld + 1) := by
  constructor
  · intro hany
    have hold : isTooOld c info = false := by
      simp only [isTooOld, hany, Bool.not_true]
    simp only [isFileExcludedDueToMetadataQuick, hreg, Bool.not_true, Bool.false_eq_true,
      if_false, hold]
    split <;> simp
  · intro hall
    have hold : isTooOld c info = true := by
      simp only [isTooOld, Bool.not_eq_true', List.any_eq_false, decide_eq_true_eq, not_lt]
      exact hall
    simp [isFileExcludedDueToMetadataQuick, hreg, hold]

/-- C3, witness for the amended theorem: with threshold 5, a regular file
with timestamps 3 and 7 is not counted too-old, and one with timestamps 3
and 5 is skipped. -/
theorem claim_C3_witness :
    (isFileExcludedDueToMetadataQuick thresholdConfig freshMeta {}).2.skippedTooOld = 0 ∧
    (isFileExcludedDueToMetadataQuick thresholdConfig staleMeta {}).1 = true := by
  exact ⟨(claim_C3_amended thresholdConfig freshMeta {} (by decide)).1 (by decide),
    ((claim_C3_amended thresholdConfig staleMeta {} (by decide)).2 (by decide)).1⟩

/-- C7: with a maximum file size configured, a regular file that survives
the age check is skipped by the metadata filter exactly when its size
strictly exceeds the maximum (so a file exactly at the limit passes), and a
too-big skip increments the too-big counter. -/
theorem claim_C7 (c : CollectorConfig) (info : FileMeta) (s : CollectionStatistics)
    (hmax : 0 < c.maxFileSize) (hreg : info.isRegular = true)
    (hage : (getTimes info).any (fun t => decide (c.thresholdTime < t)) = true) :
    ((isFileExcludedDueToMetadataQuick c info s).1 = true ↔ c.maxFileSize < info.size) ∧
    (info.size = c.maxFileSize → (isFileExcludedDueToMetadataQuick c info s).1 = false) ∧
    ((isFileExcludedDueToMetadataQuick c info s).1 = true →
      (isFileExcludedDueToMetadataQuick c info s).2.skippedTooBig = s.skippedTooBig + 1) := by
  have hold : isTooOld c info = false := by
    simp only [isTooOld, hage, Bool.not_true]
  simp only [isFileExcludedDueToMetadataQuick, hreg, Bool.not_true, Bool.false_eq_true,
    if_false, hold]
  refine ⟨?_, ?_, ?_⟩
  · constructor
    · intro h
      by_contra hlt
      simp [hmax, hlt] at h
    · intro h
      simp [decide_eq_true hmax, decide_eq_true h]
  · intro h
    simp [h]
  · intro h
    split at h
    · next hcond =>
      simp only [Bool.and_eq_true, decide_eq_true_eq] at hcond
      simp [hcond.1, hcond.2]
    · simp at h

/-- C7, witness: with maximum size 5, a fresh regular file of size 5 passes
and its size-6 sibling is skipped as too-big. -/
theorem claim_C7_witness :
    ((isFileExcludedDueToMetadataQuick { plainConfig with maxFileSize := 5 }
        { freshMeta with size := 5, times := [1] } {}).1 = false) ∧
    ((isFileExcludedDueToMetadataQuick { plainConfig with maxFileSize := 5 }
        { freshMeta with size := 6, times := [1] } {}).1 = true) := by
  refine ⟨(claim_C7 { plainConfig with maxFileSize := 5 }
      { freshMeta with size := 5, times := [1] } {} (by decide) (by decide) (by decide)).2.1
      (by decide), ?_⟩
  exact (claim_C7 { plainConfig with maxFileSize := 5 }
      { freshMeta with size := 6, times := [1] } {} (by decide) (by decide) (by decide)).1.mpr
      (by decide)

/-- C6: an extension match short-circuits the content-type filter — the file
is accepted (not wrong-type) and the magic-header read never occurs, even
when magic headers are configured; the magic read occurs exactly when at
least one header is configured and no extension matched; with neither
extensions nor headers configured, every file passes the content-type
filter. -/
theorem content_magicRead_mem (c : CollectorConfig) (hash : List UInt8 → List UInt8)
    (info : FileDesc) (st : WorkerState) :
    (Ev.magicRead ∈ (isFileExcludedDueToContent c hash info st).2.2) ↔
      magicReadOccurs c info.path = true := by
  unfold isFileExcludedDueToContent
  by_cases h : magicReadOccurs c info.path = true
  · simp only [h, if_true]
    split
    · simp
    · split
      · split
        · simp
        · split <;> simp
      · simp
  · have h' : magicReadOccurs c info.path = false := by
      simpa using h
    simp only [h']
    split
    · simp
    · split
      · split
        · simp
        · split <;> simp
      · simp

/-- C6: an extension match short-circuits the content-type filter — the file
is accepted (not wrong-type) and the magic-header read never occurs, even
when magic headers are configured; the magic read occurs exactly when at
least one header is configured and no extension matched; with neither
extensions nor headers configured, every file passes the content-type
filter. -/
theorem claim_C6 (c : CollectorConfig) (hash : List UInt8 → List UInt8)
    (info : FileDesc) (st : WorkerState) :
    (extensionWanted c info.path = true →
      wrongTypeExcluded c info = false ∧ magicReadOccurs c info.path = false ∧
        Ev.magicRead ∉ (isFileExcludedDueToContent c hash info st).2.2) ∧
    (Ev.magicRead ∈ (isFileExcludedDueToContent c hash info st).2.2 ↔
      (0 < c.magicHeaders.length ∧ extensionWanted c info.path = false)) ∧
    (c.fileExtensions = [] → c.magicHeaders = [] → wrongTypeExcluded c info = false) := by
  refine ⟨?_, ?_, ?_⟩
  · intro hext
    have hread : magicReadOccurs c info.path = false := by
      simp [magicReadOccurs, hext]
    refine ⟨by simp [wrongTypeExcluded, hext], hread, ?_⟩
    rw [content_magicRead_mem]
    simp [hread]
  · rw [content_magicRead_mem]
    simp [magicReadOccurs, Bool.and_eq_true, decide_eq_true_eq, Bool.not_eq_true']
  · intro hext hmagic
    simp [wrongTypeExcluded, hext, hmagic]

/-- Extensions `.exe`/`.dll` plus a magic header `MZ` that would match too. -/
def extMagicConfig : CollectorConfig :=
  { plainConfig with
      fileExtensions := [".exe", ".dll"]
      magicHeaders := [[77, 90]] }

/-- A file named `sample.exe` whose content also starts with `MZ`. -/
def sampleExe : FileDesc :=
  { bigFile with
      path := "sample.exe"
      content := [77, 90, 0] }

/-- C6, witness: with extensions `[".exe", ".dll"]` and a magic header `MZ`
that would also match, `sample.exe` (whose content starts with `MZ`) is
accepted without the magic read ever occurring; with no filters configured
nothing is wrong-typed. -/
theorem claim_C6_witness :
    (wrongTypeExcluded extMagicConfig sampleExe = false ∧
      magicReadOccurs extMagicConfig sampleExe.path = false ∧
      Ev.magicRead ∉
        (isFileExcludedDueToContent extMagicConfig sampleHash sampleExe initialState).2.2) ∧
    wrongTypeExcluded plainConfig bigFile = false := by
  refine ⟨(claim_C6 extMagicConfig sampleHash sampleExe initialState).1 (by decide), ?_⟩
  exact (claim_C6 plainConfig sampleHash bigFile initialState).2.2 (by decide) (by decide)

/-- C10: a file strictly shorter than the longest configured magic header
makes the positioned header read fail, so magic matching is skipped and the
file can only be accepted via an extension — even when its entire content is
a prefix matching one of the shorter configured headers; without an
extension match it is wrong-typed. -/
theorem claim_C10 (c : CollectorConfig) (info : FileDesc)
    (hcfg : 0 < c.magicHeaders.length)
    (hshort : info.content.length < magicHeaderExtractionLength c) :
    (readAtFromStart info.content (magicHeaderExtractionLength c)).2 = true ∧
    magicHeaderWantedCheck c info.content = false ∧
    (extensionWanted c info.path = false → wrongTypeExcluded c info = true) := by
  have hread : (readAtFromStart info.content (magicHeaderExtractionLength c)).2 = true := by
    simp only [readAtFromStart, decide_eq_true_eq]
    omega
  have hwant : magicHeaderWantedCheck c info.content = false := by
    simp only [magicHeaderWantedCheck]
    rw [show readAtFromStart info.content (magicHeaderExtractionLength c) =
      ((readAtFromStart info.content (magicHeaderExtractionLength c)).1,
        (readAtFromStart info.content (magicHeaderExtractionLength c)).2) from rfl, hread]
    simp
  refine ⟨hread, hwant, fun hext => ?_⟩
  simp [wrongTypeExcluded, hext, magicReadOccurs, hwant, hcfg]

/-- C10, witness: with headers `MZ` and `FF D8 FF` (longest length 3), a
two-byte file whose whole content is exactly `MZ` is still wrong-typed: the
length-3 positioned read fails before any prefix comparison. -/
theorem claim_C10_witness :
    (readAtFromStart [77, 90] (magicHeaderExtractionLength
      { plainConfig with magicHeaders := [[77, 90], [255, 216, 255]] })).2 = true ∧
    wrongTypeExcluded { plainConfig with magicHeaders := [[77, 90], [255, 216, 255]] }
      { bigFile with path := "x", content := [77, 90] } = true := by
  have h := claim_C10 { plainConfig with magicHeaders := [[77, 90], [255, 216, 255]] }
    { bigFile with path := "x", content := [77, 90] } (by decide) (by decide)
  exact ⟨h.1, h.2.2 (by decide)⟩

theorem throttleLoop_exit_spaced (period lastScanTime : Int) (clocks : List Int)
    (t : Int) (h : (throttleLoop period lastScanTime clocks).2 = some t) :
    lastScanTime + period ≤ t := by
  induction clocks with
  | nil => simp [throttleLoop] at h
  | cons now rest ih =>
    rw [throttleLoop] at h
    split at h
    · next hge =>
      simp only [Option.some.injEq] at h
      omega
    · exact ih h

theorem throttleLoop_sleeps_unlocked (period lastScanTime : Int)
    (clocks : List Int) :
    sleepsOutsideLock 0 (throttleLoop period lastScanTime clocks).1 = true := by
  induction clocks with
  | nil => simp [throttleLoop, sleepsOutsideLock]
  | cons now rest ih =>
    rw [throttleLoop]
    split
    · simp [sleepsOutsideLock]
    · simpa [sleepsOutsideLock] using ih

theorem throttleExits_head_spaced (period : Int) (clockss : List (List Int)) :
    ∀ lastScanTime y,
      (throttleExits period lastScanTime clockss).head? = some y →
      lastScanTime + period ≤ y := by
  induction clockss with
  | nil => intro last y hy; simp [throttleExits] at hy
  | cons clocks more ih =>
    intro last y hy
    rw [throttleExits] at hy
    revert hy
    split
    · next evs t heq =>
      intro hy
      simp only [List.head?_cons, Option.some.injEq] at hy
      subst hy
      exact throttleLoop_exit_spaced period last clocks _ (by rw [heq])
    · exact ih last y

theorem throttleExits_chain (period : Int) (clockss : List (List Int))
    (lastScanTime : Int) :
    List.Chain' (fun a b => a + period ≤ b)
      (throttleExits period lastScanTime clockss) := by
  induction clockss generalizing lastScanTime with
  | nil => simp [throttleExits]
  | cons clocks more ih =>
    rw [throttleExits]
    split
    · next evs t heq =>
      exact List.chain'_cons'.mpr ⟨throttleExits_head_spaced period more t, ih t⟩
    · exact ih lastScanTime

/-- C9: with a minimum upload period configured, the throttle gate (i) lets
an upload start only when at least the minimum period has elapsed since the
recorded time of the previous upload — so the successive recorded upload
times across all workers are each at least one period apart — and (ii) emits
every sleep outside the mutex: the lock is released before
sleeping, so workers are never serialized through the sleep itself. -/
theorem claim_C9 (c : CollectorConfig) (lastScanTime : Int) (clocks : List Int)
    (clockss : List (List Int)) (hperiod : 0 < c.minUploadPeriod) :
    (∀ t, (throttle c lastScanTime clocks).2 = some t →
      lastScanTime + c.minUploadPeriod ≤ t) ∧
    sleepsOutsideLock 0 (throttle c lastScanTime clocks).1 = true ∧
    List.Chain' (fun a b => a + c.minUploadPeriod ≤ b)
      (throttleExits c.minUploadPeriod lastScanTime clockss) := by
  have hth : throttle c lastScanTime clocks =
      throttleLoop c.minUploadPeriod lastScanTime clocks := by
    simp [throttle, hperiod]
  refine ⟨?_, ?_, throttleExits_chain _ _ _⟩
  · intro t ht
    rw [hth] at ht
    exact throttleLoop_exit_spaced _ _ _ t ht
  · rw [hth]
    exact throttleLoop_sleeps_unlocked _ _ _

/-- A configuration throttled to one upload per 10 time units. -/
def throttleConfig : CollectorConfig := { plainConfig with minUploadPeriod := 10 }

/-- C9, witness: with period 10, a worker that first reads clock 3 sleeps
outside the lock and exits at clock 12, at least one period after the
recorded time 0; the recorded exit times for clock scripts [12] then [25]
are 12 and 25, one period apart. -/
theorem claim_C9_witness :
    ((0 : Int) + throttleConfig.minUploadPeriod ≤ 12) ∧
    sleepsOutsideLock 0 (throttle throttleConfig 0 [3, 12]).1 = true ∧
    List.Chain' (fun a b => a + throttleConfig.minUploadPeriod ≤ b)
      (throttleExits throttleConfig.minUploadPeriod 0 [[12], [25]]) := by
  have h := claim_C9 throttleConfig 0 [3, 12] [[12], [25]] (by decide)
  exact ⟨h.1 12 (by decide), h.2.1, h.2.2⟩

theorem metadata_pass (c : CollectorConfig) (info : FileMeta)
    (hreg : info.isRegular = true)
    (hage : (getTimes info).any (fun t => decide (c.thresholdTime < t)) = true)
    (hbig : ¬(0 < c.maxFileSize ∧ c.maxFileSize < info.size)) (s : CollectionStatistics) :
    isFileExcludedDueToMetadata c info s = (false, "", s) := by
  have hold : isTooOld c info = false := by
    simp only [isTooOld, hage, Bool.not_true]
  have hsize : (decide (c.maxFileSize > 0) && decide (c.maxFileSize < info.size)) = false := by
    by_cases h1 : 0 < c.maxFileSize
    · have h2 : ¬(c.maxFileSize < info.size) := fun hc => hbig ⟨h1, hc⟩
      simp [h2]
    · simp [h1]
  simp [isFileExcludedDueToMetadata, hreg, hold, hsize]

theorem metadata_quick_pass (c : CollectorConfig) (info : FileMeta)
    (hreg : info.isRegular = true)
    (hage : (getTimes info).any (fun t => decide (c.thresholdTime < t)) = true)
    (hbig : ¬(0 < c.maxFileSize ∧ c.maxFileSize < info.size)) (s : CollectionStatistics) :
    isFileExcludedDueToMetadataQuick c info s = (false, s) := by
  have hold : isTooOld c info = false := by
    simp only [isTooOld, hage, Bool.not_true]
  have hsize : (decide (c.maxFileSize > 0) && decide (c.maxFileSize < info.size)) = false := by
    by_cases h1 : 0 < c.maxFileSize
    · have h2 : ¬(c.maxFileSize < info.size) := fun hc => hbig ⟨h1, hc⟩
      simp [h2]
    · simp [h1]
  simp [isFileExcludedDueToMetadataQuick, hreg, hold, hsize]

theorem content_pass_small (c : CollectorConfig) (hash : List UInt8 → List UInt8)
    (info : FileDesc) (htype : wrongTypeExcluded c info = false)
    (hsmall : info.meta.size ≤ c.minCacheFileSize) (st : WorkerState) :
    isFileExcludedDueToContent c hash info st =
      (false, st, if magicReadOccurs c info.path then [Ev.magicRead] else []) := by
  have hno : ¬(info.meta.size > c.minCacheFileSize) := not_lt.mpr hsmall
  simp [isFileExcludedDueToContent, htype, hno]

/-- The trace prefix every live upload attempt shares: open, optional magic
read, throttle. -/
def attemptPrefix (c : CollectorConfig) (info : FileDesc) : List Ev :=
  (Ev.openFile :: (if magicReadOccurs c info.path then [Ev.magicRead] else [])) ++
    [Ev.throttleCall]

theorem runRedo_succ_redo (c : CollectorConfig) (hash : List UInt8 → List UInt8)
    (info : FileDesc) (fuel retries : Nat) (script : List ServerResponse)
    (st : WorkerState) (r' : Nat) (script' : List ServerResponse) (st' : WorkerState)
    (evs : List Ev)
    (h : uploadToThunderstorm c hash info retries script st = (true, r', script', st', evs)) :
    runRedo c hash info (fuel + 1) retries script st =
      ((runRedo c hash info fuel r' script' st').1,
        (runRedo c hash info fuel r' script' st').2.1,
        evs ++ (runRedo c hash info fuel r' script' st').2.2) := by
  simp only [runRedo, h, if_true]

theorem runRedo_succ_done (c : CollectorConfig) (hash : List UInt8 → List UInt8)
    (info : FileDesc) (fuel retries : Nat) (script : List ServerResponse)
    (st : WorkerState) (r' : Nat) (script' : List ServerResponse) (st' : WorkerState)
    (evs : List Ev)
    (h : uploadToThunderstorm c hash info retries script st = (false, r', script', st', evs)) :
    runRedo c hash info (fuel + 1) retries script st = (st', script', evs) := by
  simp only [runRedo, h, Bool.false_eq_true, if_false]

theorem upload_transport_retry (c : CollectorConfig) (hash : List UInt8 → List UInt8)
    (info : FileDesc) (hdry : c.dryRun = false) (hreg : info.meta.isRegular = true)
    (hage : (getTimes info.meta).any (fun t => decide (c.thresholdTime < t)) = true)
    (hbig : ¬(0 < c.maxFileSize ∧ c.maxFileSize < info.meta.size))
    (hopen : info.openFails = false) (htype : wrongTypeExcluded c info = false)
    (hsmall : info.meta.size ≤ c.minCacheFileSize) (retries : Nat)
    (hlt : retries < maxRetries) (st : WorkerState) :
    uploadToThunderstorm c hash info retries [] st =
      (true, retries + 1, [], st, attemptPrefix c info ++
        [Ev.netPost, Ev.sleepBackoff (baseRetryDelay * 2 ^ (retries + 1))]) := by
  simp only [uploadToThunderstorm, sendToThunderstorm, metadata_pass c info.meta hreg hage hbig,
    hopen, content_pass_small c hash info htype hsmall, hdry, handleTransportError, hlt,
    if_true, Bool.false_eq_true, if_false, attemptPrefix]

theorem upload_transport_exhausted (c : CollectorConfig) (hash : List UInt8 → List UInt8)
    (info : FileDesc) (hdry : c.dryRun = false) (hreg : info.meta.isRegular = true)
    (hage : (getTimes info.meta).any (fun t => decide (c.thresholdTime < t)) = true)
    (hbig : ¬(0 < c.maxFileSize ∧ c.maxFileSize < info.meta.size))
    (hopen : info.openFails = false) (htype : wrongTypeExcluded c info = false)
    (hsmall : info.meta.size ≤ c.minCacheFileSize) (st : WorkerState) :
    uploadToThunderstorm c hash info maxRetries [] st =
      (false, maxRetries, [],
        { st with stats := { st.stats with uploadErrors := st.stats.uploadErrors + 1 } },
        attemptPrefix c info ++ [Ev.netPost]) := by
  simp only [uploadToThunderstorm, sendToThunderstorm, metadata_pass c info.meta hreg hage hbig,
    hopen, content_pass_small c hash info htype hsmall, hdry, handleTransportError,
    Nat.lt_irrefl, if_true, Bool.false_eq_true, if_false, attemptPrefix]

/-- C1, counterexample: against a server that never answers (every POST
fails at transport level), a small file that passes every filter is POSTed
exactly 4 times — one initial attempt plus `maxRetries = 3` retries — not 3,
before the single upload-error is recorded. -/
theorem claim_C1_counterexample :
    ((processFile plainConfig sampleHash smallFile [] initialState).2.2.filter
        isPost).length = 4 ∧
    ((processFile plainConfig sampleHash smallFile [] initialState).2.2.filter
        isPost).length ≠ 3 ∧
    (processFile plainConfig sampleHash smallFile [] initialState).1.stats.uploadErrors
      = 1 := by
  decide

/-- C1, amended: for a queued file that passes the filters and stays below
the minimum cache size (so the dedup hash path is not taken), a permanent
transport-level failure yields exactly 4 POST attempts (1 initial +
maxRetries = 3 retries), a sleep of `baseRetryDelay * 2^retries` after each
of the three non-final failures (with `retries` the just-incremented
counter: 8 s, 16 s, 32 s), then exactly one upload-error and no uploads.
(Files above the minimum cache size instead insert their digest on the first
attempt and are skipped as duplicates on the first redo.) -/
theorem claim_C1_amended (c : CollectorConfig) (hash : List UInt8 → List UInt8)
    (info : FileDesc) (st : WorkerState) (hdry : c.dryRun = false)
    (hreg : info.meta.isRegular = true)
    (hage : (getTimes info.meta).any (fun t => decide (c.thresholdTime < t)) = true)
    (hbig : ¬(0 < c.maxFileSize ∧ c.maxFileSize < info.meta.size))
    (hopen : info.openFails = false) (htype : wrongTypeExcluded c info = false)
    (hsmall : info.meta.size ≤ c.minCacheFileSize) :
    ((processFile c hash info [] st).2.2.filter isPost).length = maxRetries + 1 ∧
    (processFile c hash info [] st).2.2.filter isBackoffSleep =
      [Ev.sleepBackoff (baseRetryDelay * 2 ^ 1), Ev.sleepBackoff (baseRetryDelay * 2 ^ 2),
        Ev.sleepBackoff (baseRetryDelay * 2 ^ 3)] ∧
    (processFile c hash info [] st).1.stats.uploadErrors = st.stats.uploadErrors + 1 ∧
    (processFile c hash info [] st).1.stats.uploadedFiles = st.stats.uploadedFiles := by
  have hretry := fun (r : Nat) (hr : r < maxRetries) (s : WorkerState) =>
    upload_transport_retry c hash info hdry hreg hage hbig hopen htype hsmall r hr s
  have hfinal := upload_transport_exhausted c hash info hdry hreg hage hbig hopen htype
    hsmall st
  have hfin : processFile c hash info [] st =
      ({ st with stats := { st.stats with uploadErrors := st.stats.uploadErrors + 1 } },
        [],
        (attemptPrefix c info ++
            [Ev.netPost, Ev.sleepBackoff (baseRetryDelay * 2 ^ (0 + 1))]) ++
          ((attemptPrefix c info ++
              [Ev.netPost, Ev.sleepBackoff (baseRetryDelay * 2 ^ (1 + 1))]) ++
            ((attemptPrefix c info ++
                [Ev.netPost, Ev.sleepBackoff (baseRetryDelay * 2 ^ (2 + 1))]) ++
              (attemptPrefix c info ++ [Ev.netPost])))) := by
    show runRedo c hash info (pipelineFuel []) 0 [] st = _
    rw [show pipelineFuel ([] : List ServerResponse) = 4 + 1 from rfl,
      runRedo_succ_redo c hash info 4 0 [] st 1 [] st _ (hretry 0 (by decide) st),
      show (4 : Nat) = 3 + 1 from rfl,
      runRedo_succ_redo c hash info 3 1 [] st 2 [] st _ (hretry 1 (by decide) st),
      show (3 : Nat) = 2 + 1 from rfl,
      runRedo_succ_redo c hash info 2 2 [] st 3 [] st _ (hretry 2 (by decide) st),
      show (2 : Nat) = 1 + 1 from rfl,
      runRedo_succ_done c hash info 1 3 [] st maxRetries [] _ _ hfinal]
  rw [hfin]
  rcases Bool.eq_false_or_eq_true (magicReadOccurs c info.path) with h | h <;>
    simp [attemptPrefix, h, isPost, isBackoffSleep, List.filter_append, List.filter,
      maxRetries]

/-- C1, witness for the amended theorem: the counterexample file evaluated
through the amended statement. -/
theorem claim_C1_witness :
    ((processFile plainConfig sampleHash smallFile [] initialState).2.2.filter
        isPost).length = maxRetries + 1 ∧
    (processFile plainConfig sampleHash smallFile [] initialState).1.stats.uploadErrors
      = 1 := by
  have h := claim_C1_amended plainConfig sampleHash smallFile initialState (by decide)
    (by decide) (by decide) (by decide) (by decide) (by decide) (by decide)
  exact ⟨h.1, h.2.2.1⟩

/-- The conditions under which a queued file reaches the upload stage: the
metadata filter passes, the file opens, and the content-type filter accepts
it. -/
def passesFilters (c : CollectorConfig) (info : FileDesc) : Prop :=
  info.meta.isRegular = true ∧
  (getTimes info.meta).any (fun t => decide (c.thresholdTime < t)) = true ∧
  ¬(0 < c.maxFileSize ∧ c.maxFileSize < info.meta.size) ∧
  info.openFails = false ∧
  wrongTypeExcluded c info = false

instance (c : CollectorConfig) (info : FileDesc) : Decidable (passesFilters c info) := by
  unfold passesFilters
  infer_instance

theorem content_pass_insert (c : CollectorConfig) (hash : List UInt8 → List UInt8)
    (info : FileDesc) (st : WorkerState)
    (htype : wrongTypeExcluded c info = false)
    (hbigf : c.minCacheFileSize < info.meta.size)
    (hnew : st.fileHashCache.contains (hash info.content) = false)
    (hroom : st.fileHashCacheCount + 1 ≤ maxHashCacheSize) :
    isFileExcludedDueToContent c hash info st =
      (false,
        { st with fileHashCache := (hash info.content :: st.fileHashCache),
                  fileHashCacheCount := st.fileHashCacheCount + 1 },
        (if magicReadOccurs c info.path then [Ev.magicRead] else []) ++ [Ev.hashContent]) := by
  have hnolt : ¬(maxHashCacheSize < st.fileHashCacheCount + 1) := not_lt.mpr hroom
  have hnew' : hash info.content ∉ st.fileHashCache := by simpa using hnew
  simp [isFileExcludedDueToContent, htype, hbigf, hnew', hnolt]

theorem content_duplicate (c : CollectorConfig) (hash : List UInt8 → List UInt8)
    (info : FileDesc) (st : WorkerState)
    (htype : wrongTypeExcluded c info = false)
    (hbigf : c.minCacheFileSize < info.meta.size)
    (hdup : st.fileHashCache.contains (hash info.content) = true) :
    isFileExcludedDueToContent c hash info st =
      (true,
        { st with stats := { st.stats with
            skippedDuplicate := st.stats.skippedDuplicate + 1 } },
        (if magicReadOccurs c info.path then [Ev.magicRead] else []) ++ [Ev.hashContent]) := by
  have hdup' : hash info.content ∈ st.fileHashCache := by simpa using hdup
  simp [isFileExcludedDueToContent, htype, hbigf, hdup']

theorem upload_ok (c : CollectorConfig) (hash : List UInt8 → List UInt8)
    (info : FileDesc) (retries : Nat) (rest : List ServerResponse) (st : WorkerState)
    (hdry : c.dryRun = false) (hpass : passesFilters c info)
    (hbigf : c.minCacheFileSize < info.meta.size)
    (hnew : st.fileHashCache.contains (hash info.content) = false)
    (hroom : st.fileHashCacheCount + 1 ≤ maxHashCacheSize) :
    uploadToThunderstorm c hash info retries (okResponse :: rest) st =
      (false, retries, rest,
        { stats := { st.stats with uploadedFiles := st.stats.uploadedFiles + 1 },
          fileHashCache := (hash info.content :: st.fileHashCache),
          fileHashCacheCount := st.fileHashCacheCount + 1 },
        ((Ev.openFile :: ((if magicReadOccurs c info.path then [Ev.magicRead] else []) ++
          [Ev.hashContent])) ++ [Ev.throttleCall]) ++ [Ev.netPost]) := by
  obtain ⟨hreg, hage, hbig, hopen, htype⟩ := hpass
  simp only [uploadToThunderstorm, sendToThunderstorm, metadata_pass c info.meta hreg hage hbig,
    hopen, content_pass_insert c hash info st htype hbigf hnew hroom, hdry, okResponse,
    statusServiceUnavailable, statusOK, Bool.false_eq_true, if_false]
  norm_num

theorem upload_duplicate (c : CollectorConfig) (hash : List UInt8 → List UInt8)
    (info : FileDesc) (retries : Nat) (script : List ServerResponse) (st : WorkerState)
    (hpass : passesFilters c info) (hbigf : c.minCacheFileSize < info.meta.size)
    (hdup : st.fileHashCache.contains (hash info.content) = true) :
    uploadToThunderstorm c hash info retries script st =
      (false, retries, script,
        { st with stats := { st.stats with
            skippedDuplicate := st.stats.skippedDuplicate + 1 } },
        Ev.openFile :: ((if magicReadOccurs c info.path then [Ev.magicRead] else []) ++
          [Ev.hashContent])) := by
  obtain ⟨hreg, hage, hbig, hopen, htype⟩ := hpass
  simp only [uploadToThunderstorm, metadata_pass c info.meta hreg hage hbig, hopen,
    content_duplicate c hash info st htype hbigf hdup, Bool.false_eq_true, if_false,
    if_true]

theorem processFile_done (c : CollectorConfig) (hash : List UInt8 → List UInt8)
    (info : FileDesc) (script : List ServerResponse) (st : WorkerState) (r' : Nat)
    (script' : List ServerResponse) (st' : WorkerState) (evs : List Ev)
    (h : uploadToThunderstorm c hash info 0 script st = (false, r', script', st', evs)) :
    processFile c hash info script st = (st', script', evs) := by
  show runRedo c hash info (pipelineFuel script) 0 script st = _
  rw [show pipelineFuel script = (script.length + maxRetries + 1) + 1 from rfl,
    runRedo_succ_done c hash info _ 0 script st r' script' st' evs h]

theorem processQueue_cons (c : CollectorConfig) (hash : List UInt8 → List UInt8)
    (info : FileDesc) (rest : List FileDesc) (script : List ServerResponse)
    (st : WorkerState) :
    processQueue c hash (info :: rest) script st =
      ((processQueue c hash rest (processFile c hash info script st).2.1
          (processFile c hash info script st).1).1,
        (processQueue c hash rest (processFile c hash info script st).2.1
          (processFile c hash info script st).1).2.1,
        (processFile c hash info script st).2.2 ++
          (processQueue c hash rest (processFile c hash info script st).2.1
            (processFile c hash info script st).1).2.2) := rfl

theorem processQueue_nil (c : CollectorConfig) (hash : List UInt8 → List UInt8)
    (script : List ServerResponse) (st : WorkerState) :
    processQueue c hash [] script st = (st, script, []) := rfl

/-- C2: a 503'd upload does sleep the parsed `Retry-After` (2 s here) and
leaves the retry counter at 0, but the redo restarts the whole pipeline from
OPEN rather than at ENCODE_AND_SEND: for this file above the minimum cache
size, whose digest was inserted into the dedup cache on the first attempt,
the redo runs the dedup check again, skips the file as a duplicate of
itself, and never re-sends — zero uploads, one duplicate-skip, exactly one
POST, and the server's waiting 200 is never consumed. The claim (and the
code's own "retrying in %d seconds" log line) expects the re-send to happen
and the file to be uploaded. -/
theorem claim_C2_bug :
    (processFile plainConfig sampleHash bigFile
        [ServerResponse.http 503 "2" false, okResponse] initialState).1.stats.uploadedFiles
      = 0 ∧
    (processFile plainConfig sampleHash bigFile
        [ServerResponse.http 503 "2" false, okResponse] initialState).1.stats.skippedDuplicate
      = 1 ∧
    ((processFile plainConfig sampleHash bigFile
        [ServerResponse.http 503 "2" false, okResponse] initialState).2.2.filter
        isPost).length = 1 ∧
    (processFile plainConfig sampleHash bigFile
        [ServerResponse.http 503 "2" false, okResponse] initialState).2.2.filter
        (fun e => match e with | Ev.sleepRetryAfter _ => true | _ => false)
      = [Ev.sleepRetryAfter (second * 2)] ∧
    (processFile plainConfig sampleHash bigFile
        [ServerResponse.http 503 "2" false, okResponse] initialState).2.1
      = [okResponse] := by
  decide

/-- C5, counterexample: two files with identical bytes, both above the
minimum cache size, in one run against a server whose transport always fails:
the first file inserts its digest before the failed POST, is skipped as a
duplicate of itself on the redo, and the second is a duplicate too — zero
uploads and two duplicate-skips, not exactly one of each. -/
theorem claim_C5_counterexample :
    (processQueue plainConfig sampleHash [bigFile, bigFileCopy] []
        initialState).1.stats.uploadedFiles = 0 ∧
    (processQueue plainConfig sampleHash [bigFile, bigFileCopy] []
        initialState).1.stats.skippedDuplicate = 2 := by
  decide

theorem process_pair_ok (c : CollectorConfig) (hash : List UInt8 → List UInt8)
    (X Y : FileDesc) (s : CollectionStatistics) (hdry : c.dryRun = false)
    (hXY : hash X.content = hash Y.content)
    (hX : passesFilters c X) (hY : passesFilters c Y)
    (hXbig : c.minCacheFileSize < X.meta.size) (hYbig : c.minCacheFileSize < Y.meta.size) :
    (processQueue c hash [X, Y] [okResponse, okResponse]
        { stats := s, fileHashCache := [], fileHashCacheCount := 0 }).1.stats.uploadedFiles
      = s.uploadedFiles + 1 ∧
    (processQueue c hash [X, Y] [okResponse, okResponse]
        { stats := s, fileHashCache := [], fileHashCacheCount := 0 }).1.stats.skippedDuplicate
      = s.skippedDuplicate + 1 := by
  have h1 : processFile c hash X [okResponse, okResponse]
      { stats := s, fileHashCache := [], fileHashCacheCount := 0 } =
      ({ stats := { s with uploadedFiles := s.uploadedFiles + 1 },
         fileHashCache := [hash X.content], fileHashCacheCount := 1 },
        [okResponse],
        ((Ev.openFile :: ((if magicReadOccurs c X.path then [Ev.magicRead] else []) ++
          [Ev.hashContent])) ++ [Ev.throttleCall]) ++ [Ev.netPost]) := by
    exact processFile_done c hash X _ _ _ _ _ _
      (upload_ok c hash X 0 [okResponse]
        { stats := s, fileHashCache := [], fileHashCacheCount := 0 } hdry hX hXbig rfl
        (by norm_num [maxHashCacheSize]))
  have h2 : processFile c hash Y [okResponse]
      { stats := { s with uploadedFiles := s.uploadedFiles + 1 },
        fileHashCache := [hash X.content], fileHashCacheCount := 1 } =
      ({ stats := { s with uploadedFiles := s.uploadedFiles + 1, skippedDuplicate := s.skippedDuplicate + 1 },
         fileHashCache := [hash X.content], fileHashCacheCount := 1 },
        [okResponse],
        Ev.openFile :: ((if magicReadOccurs c Y.path then [Ev.magicRead] else []) ++
          [Ev.hashContent])) := by
    have hmem : ([hash X.content] : List (List UInt8)).contains (hash Y.content) = true := by
      simp [hXY]
    exact processFile_done c hash Y _ _ _ _ _ _
      (upload_duplicate c hash Y 0 [okResponse] _ hY hYbig hmem)
  rw [processQueue_cons, h1]
  simp only
  rw [processQueue_cons, h2]
  simp [processQueue_nil]

/-- C5, amended: the dedup pairing holds on a clean run — against a server
that answers every POST 200, in a run consisting of the two identical files
(both above the minimum cache size, both passing the filters, well below the
cache-reset ceiling), exactly one is uploaded and exactly one is counted as
a duplicate-skip, regardless of processing order. In runs where the chosen
file's upload pipeline does not succeed (transport failure or non-200), or
when the coarse cache reset intervenes between the two, the pairing fails
(see the counterexample). -/
theorem claim_C5_amended (c : CollectorConfig) (hash : List UInt8 → List UInt8)
    (A B : FileDesc) (s : CollectionStatistics) (hdry : c.dryRun = false)
    (hAB : A.content = B.content)
    (hA : passesFilters c A) (hB : passesFilters c B)
    (hAbig : c.minCacheFileSize < A.meta.size)
    (hBbig : c.minCacheFileSize < B.meta.size) :
    ∀ q, q = [A, B] ∨ q = [B, A] →
      (processQueue c hash q [okResponse, okResponse]
          { stats := s, fileHashCache := [], fileHashCacheCount := 0 }).1.stats.uploadedFiles
        = s.uploadedFiles + 1 ∧
      (processQueue c hash q [okResponse, okResponse]
          { stats := s, fileHashCache := [], fileHashCacheCount := 0 }).1.stats.skippedDuplicate
        = s.skippedDuplicate + 1 := by
  intro q hq
  rcases hq with rfl | rfl
  · exact process_pair_ok c hash A B s hdry (congrArg hash hAB) hA hB hAbig hBbig
  · exact process_pair_ok c hash B A s hdry (congrArg hash hAB.symm) hB hA hBbig hAbig

/-- C5, witness for the amended theorem: the two identical 5-byte files
against two 200 answers, in both orders. -/
theorem claim_C5_witness :
    ((processQueue plainConfig sampleHash [bigFile, bigFileCopy] [okResponse, okResponse]
        initialState).1.stats.uploadedFiles = 1 ∧
      (processQueue plainConfig sampleHash [bigFile, bigFileCopy] [okResponse, okResponse]
        initialState).1.stats.skippedDuplicate = 1) ∧
    ((processQueue plainConfig sampleHash [bigFileCopy, bigFile] [okResponse, okResponse]
        initialState).1.stats.uploadedFiles = 1 ∧
      (processQueue plainConfig sampleHash [bigFileCopy, bigFile] [okResponse, okResponse]
        initialState).1.stats.skippedDuplicate = 1) := by
  have h := claim_C5_amended plainConfig sampleHash bigFile bigFileCopy {} (by decide)
    (by decide) (by decide) (by decide) (by decide) (by decide)
  exact ⟨h [bigFile, bigFileCopy] (Or.inl rfl), h [bigFileCopy, bigFile] (Or.inr rfl)⟩

theorem content_evs_harmless (c : CollectorConfig) (hash : List UInt8 → List UInt8)
    (info : FileDesc) (st : WorkerState) :
    (isFileExcludedDueToContent c hash info st).2.2.all
      (fun e => !isNetworkOrWait e) = true := by
  unfold isFileExcludedDueToContent
  rcases Bool.eq_false_or_eq_true (magicReadOccurs c info.path) with h | h <;>
    simp only [h, Bool.false_eq_true, if_true, if_false] <;>
    (repeat' split) <;>
    simp [isNetworkOrWait]

/-- The worker state after the worker-side metadata check has updated the
statistics. -/
def afterMetaState (c : CollectorConfig) (fd : FileDesc) (st : WorkerState) : WorkerState :=
  { st with stats := (isFileExcludedDueToMetadata c fd.meta st.stats).2.2 }

/-- The content-filter/dedup step as the upload pipeline invokes it. -/
def contentStep (c : CollectorConfig) (hash : List UInt8 → List UInt8)
    (fd : FileDesc) (st : WorkerState) : Bool × WorkerState × List Ev :=
  isFileExcludedDueToContent c hash fd (afterMetaState c fd st)

theorem upload_meta_excluded (c : CollectorConfig) (hash : List UInt8 → List UInt8)
    (fd : FileDesc) (retries : Nat) (script : List ServerResponse) (st : WorkerState)
    (h1 : (isFileExcludedDueToMetadata c fd.meta st.stats).1 = true) :
    uploadToThunderstorm c hash fd retries script st =
      (false, retries, script, afterMetaState c fd st, []) := by
  simp only [uploadToThunderstorm, h1, if_true, afterMetaState]

theorem upload_open_failed (c : CollectorConfig) (hash : List UInt8 → List UInt8)
    (fd : FileDesc) (retries : Nat) (script : List ServerResponse) (st : WorkerState)
    (h1 : (isFileExcludedDueToMetadata c fd.meta st.stats).1 = false)
    (h2 : fd.openFails = true) :
    uploadToThunderstorm c hash fd retries script st =
      (false, retries, script,
        { st with stats := { (isFileExcludedDueToMetadata c fd.meta st.stats).2.2 with
            fileErrors := (isFileExcludedDueToMetadata c fd.meta st.stats).2.2.fileErrors + 1 } },
        []) := by
  simp only [uploadToThunderstorm, h1, h2, Bool.false_eq_true, if_false, if_true]

theorem upload_content_excluded (c : CollectorConfig) (hash : List UInt8 → List UInt8)
    (fd : FileDesc) (retries : Nat) (script : List ServerResponse) (st : WorkerState)
    (h1 : (isFileExcludedDueToMetadata c fd.meta st.stats).1 = false)
    (h2 : fd.openFails = false)
    (h3 : (contentStep c hash fd st).1 = true) :
    uploadToThunderstorm c hash fd retries script st =
      (false, retries, script, (contentStep c hash fd st).2.1,
        Ev.openFile :: (contentStep c hash fd st).2.2) := by
  simp only [uploadToThunderstorm, h1, h2, Bool.false_eq_true, if_false, if_true]
  simp only [contentStep, afterMetaState] at h3
  simp only [h3, if_true, contentStep, afterMetaState]

theorem upload_dry_would (c : CollectorConfig) (hash : List UInt8 → List UInt8)
    (fd : FileDesc) (retries : Nat) (script : List ServerResponse) (st : WorkerState)
    (hdry : c.dryRun = true)
    (h1 : (isFileExcludedDueToMetadata c fd.meta st.stats).1 = false)
    (h2 : fd.openFails = false)
    (h3 : (contentStep c hash fd st).1 = false) :
    uploadToThunderstorm c hash fd retries script st =
      (false, retries, script,
        { (contentStep c hash fd st).2.1 with stats :=
          { (contentStep c hash fd st).2.1.stats with
            uploadedFiles := (contentStep c hash fd st).2.1.stats.uploadedFiles + 1 } },
        Ev.openFile :: (contentStep c hash fd st).2.2) := by
  simp only [uploadToThunderstorm, h1, h2, hdry, Bool.false_eq_true, if_false, if_true]
  simp only [contentStep, afterMetaState] at h3
  simp only [h3, Bool.false_eq_true, if_false, if_true, contentStep, afterMetaState]

theorem upload_live_ok (c : CollectorConfig) (hash : List UInt8 → List UInt8)
    (fd : FileDesc) (retries : Nat) (rest : List ServerResponse) (st : WorkerState)
    (hdry : c.dryRun = false)
    (h1 : (isFileExcludedDueToMetadata c fd.meta st.stats).1 = false)
    (h2 : fd.openFails = false)
    (h3 : (contentStep c hash fd st).1 = false) :
    uploadToThunderstorm c hash fd retries (okResponse :: rest) st =
      (false, retries, rest,
        { (contentStep c hash fd st).2.1 with stats :=
          { (contentStep c hash fd st).2.1.stats with
            uploadedFiles := (contentStep c hash fd st).2.1.stats.uploadedFiles + 1 } },
        ((Ev.openFile :: (contentStep c hash fd st).2.2) ++ [Ev.throttleCall]) ++
          [Ev.netPost]) := by
  simp only [uploadToThunderstorm, h1, h2, hdry, Bool.false_eq_true, if_false, if_true]
  simp only [contentStep, afterMetaState] at h3
  simp only [h3, Bool.false_eq_true, if_false, if_true, contentStep, afterMetaState,
    sendToThunderstorm, okResponse, statusServiceUnavailable, statusOK]
  norm_num

theorem upload_live_reduce (c : CollectorConfig) (hash : List UInt8 → List UInt8)
    (fd : FileDesc) (retries : Nat) (script : List ServerResponse) (st : WorkerState)
    (hdry : c.dryRun = false)
    (h1 : (isFileExcludedDueToMetadata c fd.meta st.stats).1 = false)
    (h2 : fd.openFails = false)
    (h3 : (contentStep c hash fd st).1 = false) :
    uploadToThunderstorm c hash fd retries script st =
      ((sendToThunderstorm c retries script (contentStep c hash fd st).2.1).1,
        (sendToThunderstorm c retries script (contentStep c hash fd st).2.1).2.1,
        (sendToThunderstorm c retries script (contentStep c hash fd st).2.1).2.2.1,
        (sendToThunderstorm c retries script (contentStep c hash fd st).2.1).2.2.2.1,
        ((Ev.openFile :: (contentStep c hash fd st).2.2) ++ [Ev.throttleCall]) ++
          (sendToThunderstorm c retries script (contentStep c hash fd st).2.1).2.2.2.2) := by
  simp only [uploadToThunderstorm, h1, h2, hdry, Bool.false_eq_true, if_false, if_true]
  simp only [contentStep, afterMetaState] at h3
  simp only [h3, Bool.false_eq_true, if_false, contentStep, afterMetaState]

theorem upload_dry_live (c : CollectorConfig) (hash : List UInt8 → List UInt8)
    (fd : FileDesc) (st : WorkerState) (scriptD rest : List ServerResponse)
    (hdry : c.dryRun = true) :
    (uploadToThunderstorm c hash fd 0 scriptD st).1 = false ∧
    (uploadToThunderstorm { c with dryRun := false } hash fd 0 (okResponse :: rest) st).1
      = false ∧
    (uploadToThunderstorm c hash fd 0 scriptD st).2.2.2.1 =
      (uploadToThunderstorm { c with dryRun := false } hash fd 0 (okResponse :: rest) st).2.2.2.1 ∧
    (uploadToThunderstorm c hash fd 0 scriptD st).2.2.1 = scriptD ∧
    ((uploadToThunderstorm { c with dryRun := false } hash fd 0 (okResponse :: rest) st).2.2.1
        = okResponse :: rest ∨
      (uploadToThunderstorm { c with dryRun := false } hash fd 0 (okResponse :: rest) st).2.2.1
        = rest) ∧
    (uploadToThunderstorm c hash fd 0 scriptD st).2.2.2.2.all
      (fun e => !isNetworkOrWait e) = true := by
  have hharm := content_evs_harmless c hash fd (afterMetaState c fd st)
  rcases Bool.eq_false_or_eq_true (isFileExcludedDueToMetadata c fd.meta st.stats).1
    with h1 | h1
  · -- worker-side metadata exclusion in both runs
    rw [upload_meta_excluded c hash fd 0 scriptD st h1,
      upload_meta_excluded { c with dryRun := false } hash fd 0 (okResponse :: rest) st h1]
    exact ⟨rfl, rfl, rfl, rfl, Or.inl rfl, rfl⟩
  · rcases Bool.eq_false_or_eq_true fd.openFails with h2 | h2
    · -- open failure in both runs
      rw [upload_open_failed c hash fd 0 scriptD st h1 h2,
        upload_open_failed { c with dryRun := false } hash fd 0 (okResponse :: rest) st
          h1 h2]
      exact ⟨rfl, rfl, rfl, rfl, Or.inl rfl, rfl⟩
    · rcases Bool.eq_false_or_eq_true (contentStep c hash fd st).1 with h3 | h3
      · -- excluded by the content filter or dedup in both runs
        rw [upload_content_excluded c hash fd 0 scriptD st h1 h2 h3,
          upload_content_excluded { c with dryRun := false } hash fd 0
            (okResponse :: rest) st h1 h2 h3]
        refine ⟨rfl, rfl, rfl, rfl, Or.inl rfl, ?_⟩
        simp only [List.all_cons, isNetworkOrWait, Bool.not_false, Bool.true_and]
        exact hharm
      · -- the file would be uploaded: dry-run counts it, live consumes the 200
        rw [upload_dry_would c hash fd 0 scriptD st hdry h1 h2 h3,
          upload_live_ok { c with dryRun := false } hash fd 0 rest st rfl h1 h2 h3]
        refine ⟨rfl, rfl, rfl, rfl, Or.inr rfl, ?_⟩
        simp only [List.all_cons, isNetworkOrWait, Bool.not_false, Bool.true_and]
        exact hharm

theorem processFile_done_proj (c : CollectorConfig) (hash : List UInt8 → List UInt8)
    (info : FileDesc) (script : List ServerResponse) (st : WorkerState)
    (h : (uploadToThunderstorm c hash info 0 script st).1 = false) :
    processFile c hash info script st =
      ((uploadToThunderstorm c hash info 0 script st).2.2.2.1,
        (uploadToThunderstorm c hash info 0 script st).2.2.1,
        (uploadToThunderstorm c hash info 0 script st).2.2.2.2) := by
  show runRedo c hash info (pipelineFuel script) 0 script st = _
  rw [show pipelineFuel script = (script.length + maxRetries + 1) + 1 from rfl]
  simp only [runRedo, h, Bool.false_eq_true, if_false]

theorem processQueue_dry_live (c : CollectorConfig) (hash : List UInt8 → List UInt8)
    (hdry : c.dryRun = true) :
    ∀ (queue : List FileDesc) (scriptD scriptL : List ServerResponse) (st : WorkerState),
      (∀ r ∈ scriptL, r = okResponse) → queue.length ≤ scriptL.length →
      (processQueue c hash queue scriptD st).1 =
        (processQueue { c with dryRun := false } hash queue scriptL st).1 ∧
      (processQueue c hash queue scriptD st).2.2.all
        (fun e => !isNetworkOrWait e) = true := by
  intro queue
  induction queue with
  | nil =>
    intro scriptD scriptL st _ _
    simp [processQueue_nil]
  | cons fd rest ih =>
    intro scriptD scriptL st hok hlen
    match scriptL, hlen with
    | r :: restL, hlen =>
      obtain rfl : r = okResponse := hok r (List.mem_cons_self r restL)
      obtain ⟨hd1, hl1, hstEq, hdScript, hlScript, hdEvs⟩ :=
        upload_dry_live c hash fd st scriptD restL hdry
      have hdProc := processFile_done_proj c hash fd scriptD st hd1
      have hlProc := processFile_done_proj { c with dryRun := false } hash fd
        (okResponse :: restL) st hl1
      have hlen' : rest.length ≤ restL.length :=
        Nat.le_of_succ_le_succ (by simpa using hlen)
      have hokRest : ∀ r' ∈ (uploadToThunderstorm { c with dryRun := false } hash fd 0
          (okResponse :: restL) st).2.2.1, r' = okResponse := by
        rcases hlScript with h | h <;> rw [h]
        · exact hok
        · exact fun r' hr' => hok r' (List.mem_cons_of_mem _ hr')
      have hlenRest : rest.length ≤ (uploadToThunderstorm { c with dryRun := false }
          hash fd 0 (okResponse :: restL) st).2.2.1.length := by
        rcases hlScript with h | h <;> rw [h]
        · simpa using Nat.le_succ_of_le hlen'
        · exact hlen'
      have hih := ih scriptD _
        ((uploadToThunderstorm { c with dryRun := false } hash fd 0
          (okResponse :: restL) st).2.2.2.1) hokRest hlenRest
      rw [processQueue_cons, processQueue_cons, hdProc, hlProc, hdScript, hstEq]
      constructor
      · exact hih.1
      · simp only [List.all_append, hdEvs, Bool.true_and]
        exact hih.2

/-- C8: in dry-run mode no network call and no throttle or sleep wait
occurs, but filtering, hashing and dedup still execute: for the same queued
files and the same starting statistics, the final worker state (all skip and
upload counters and the dedup cache) equals that of a live run against a
server that answers every POST with 200. -/
theorem claim_C8 (c : CollectorConfig) (hash : List UInt8 → List UInt8)
    (queue : List FileDesc) (scriptD scriptL : List ServerResponse)
    (s : CollectionStatistics) (hdry : c.dryRun = true)
    (hok : ∀ r ∈ scriptL, r = okResponse) (hlen : queue.length ≤ scriptL.length) :
    (processQueue c hash queue scriptD
        { stats := s, fileHashCache := [], fileHashCacheCount := 0 }).1.stats =
      (processQueue { c with dryRun := false } hash queue scriptL
        { stats := s, fileHashCache := [], fileHashCacheCount := 0 }).1.stats ∧
    (processQueue c hash queue scriptD
        { stats := s, fileHashCache := [], fileHashCacheCount := 0 }).2.2.all
      (fun e => !isNetworkOrWait e) = true := by
  obtain ⟨hstate, hevs⟩ := processQueue_dry_live c hash hdry queue scriptD scriptL
    { stats := s, fileHashCache := [], fileHashCacheCount := 0 } hok hlen
  exact ⟨congrArg WorkerState.stats hstate, hevs⟩

/-- C8, witness: a dry run over the duplicate pair and the small file yields
the same statistics as the live always-200 run, and its trace holds no
network, throttle, or sleep event. -/
theorem claim_C8_witness :
    (processQueue { plainConfig with dryRun := true } sampleHash
        [bigFile, bigFileCopy, smallFile] [] initialState).1.stats =
      (processQueue plainConfig sampleHash [bigFile, bigFileCopy, smallFile]
        [okResponse, okResponse, okResponse] initialState).1.stats ∧
    (processQueue { plainConfig with dryRun := true } sampleHash
        [bigFile, bigFileCopy, smallFile] [] initialState).2.2.all
      (fun e => !isNetworkOrWait e) = true := by
  have h := claim_C8 { plainConfig with dryRun := true } sampleHash
    [bigFile, bigFileCopy, smallFile] [] [okResponse, okResponse, okResponse] {}
    (by decide) (by decide) (by decide)
  exact h

theorem metadata_outcomes (c : CollectorConfig) (info : FileMeta)
    (s : CollectionStatistics) :
    pipelineOutcomes (isFileExcludedDueToMetadata c info s).2.2 +
        (if (isFileExcludedDueToMetadata c info s).1 then 0 else 1) =
      pipelineOutcomes s + 1 ∧
    (isFileExcludedDueToMetadata c info s).2.2.filesDiscovered = s.filesDiscovered := by
  unfold isFileExcludedDueToMetadata pipelineOutcomes
  repeat' split
  all_goals simp_all
  all_goals omega

theorem metadata_quick_outcomes (c : CollectorConfig) (info : FileMeta)
    (s : CollectionStatistics) :
    pipelineOutcomes (isFileExcludedDueToMetadataQuick c info s).2 +
        (if (isFileExcludedDueToMetadataQuick c info s).1 then 0 else 1) =
      pipelineOutcomes s + 1 ∧
    (isFileExcludedDueToMetadataQuick c info s).2.filesDiscovered = s.filesDiscovered := by
  unfold isFileExcludedDueToMetadataQuick pipelineOutcomes
  repeat' split
  all_goals simp_all
  all_goals omega

theorem content_outcomes (c : CollectorConfig) (hash : List UInt8 → List UInt8)
    (info : FileDesc) (st : WorkerState) :
    pipelineOutcomes (isFileExcludedDueToContent c hash info st).2.1.stats +
        (if (isFileExcludedDueToContent c hash info st).1 then 0 else 1) =
      pipelineOutcomes st.stats + 1 ∧
    (isFileExcludedDueToContent c hash info st).2.1.stats.filesDiscovered =
      st.stats.filesDiscovered := by
  unfold isFileExcludedDueToContent pipelineOutcomes
  repeat' split
  all_goals try simp_all
  all_goals repeat' split
  all_goals try simp_all
  all_goals omega

theorem send_outcomes (c : CollectorConfig) (retries : Nat)
    (script : List ServerResponse) (st' : WorkerState) :
    pipelineOutcomes (sendToThunderstorm c retries script st').2.2.2.1.stats +
        (if (sendToThunderstorm c retries script st').1 then 1 else 0) =
      pipelineOutcomes st'.stats + 1 ∧
    (sendToThunderstorm c retries script st').2.2.2.1.stats.filesDiscovered =
      st'.stats.filesDiscovered ∧
    ((sendToThunderstorm c retries script st').1 = true →
      (sendToThunderstorm c retries script st').2.2.1.length +
          (maxRetries + 1 - (sendToThunderstorm c retries script st').2.1) <
        script.length + (maxRetries + 1 - retries)) := by
  have hmr : maxRetries = 3 := rfl
  unfold sendToThunderstorm handleTransportError pipelineOutcomes
  repeat' split
  all_goals simp_all
  all_goals omega

theorem upload_outcomes (c : CollectorConfig) (hash : List UInt8 → List UInt8)
    (info : FileDesc) (retries : Nat) (script : List ServerResponse) (st : WorkerState) :
    pipelineOutcomes (uploadToThunderstorm c hash info retries script st).2.2.2.1.stats +
        (if (uploadToThunderstorm c hash info retries script st).1 then 1 else 0) =
      pipelineOutcomes st.stats + 1 ∧
    (uploadToThunderstorm c hash info retries script st).2.2.2.1.stats.filesDiscovered =
      st.stats.filesDiscovered ∧
    ((uploadToThunderstorm c hash info retries script st).1 = true →
      (uploadToThunderstorm c hash info retries script st).2.2.1.length +
          (maxRetries + 1 - (uploadToThunderstorm c hash info retries script st).2.1) <
        script.length + (maxRetries + 1 - retries)) := by
  obtain ⟨hm1, hm2⟩ := metadata_outcomes c info.meta st.stats
  rcases Bool.eq_false_or_eq_true (isFileExcludedDueToMetadata c info.meta st.stats).1
    with h1 | h1
  · rw [upload_meta_excluded c hash info retries script st h1]
    rw [h1] at hm1
    simp only [if_true] at hm1
    refine ⟨?_, ?_, by simp⟩
    · simpa [afterMetaState] using hm1
    · simpa [afterMetaState] using hm2
  · rw [h1] at hm1
    simp only [Bool.false_eq_true, if_false] at hm1
    rcases Bool.eq_false_or_eq_true info.openFails with h2 | h2
    · rw [upload_open_failed c hash info retries script st h1 h2]
      refine ⟨?_, ?_, by simp⟩
      · simp only [pipelineOutcomes] at hm1 ⊢
        simp
        omega
      · simpa using hm2
    · obtain ⟨hc1, hc2⟩ := content_outcomes c hash info (afterMetaState c info st)
      have hAstats : (afterMetaState c info st).stats =
          (isFileExcludedDueToMetadata c info.meta st.stats).2.2 := rfl
      rw [hAstats] at hc1 hc2
      have hCs : isFileExcludedDueToContent c hash info (afterMetaState c info st) =
          contentStep c hash info st := rfl
      rw [hCs] at hc1 hc2
      rcases Bool.eq_false_or_eq_true (contentStep c hash info st).1 with h3 | h3
      · rw [upload_content_excluded c hash info retries script st h1 h2 h3]
        rw [h3] at hc1
        simp only [if_true] at hc1
        refine ⟨?_, by dsimp only; omega, by simp⟩
        dsimp only
        simp only [Bool.false_eq_true, if_false, pipelineOutcomes] at hm1 hc1 ⊢
        omega
      · rw [h3] at hc1
        simp only [Bool.false_eq_true, if_false] at hc1
        have hP : pipelineOutcomes (contentStep c hash info st).2.1.stats =
            pipelineOutcomes st.stats := by omega
        have hD : (contentStep c hash info st).2.1.stats.filesDiscovered =
            st.stats.filesDiscovered := by omega
        rcases Bool.eq_false_or_eq_true c.dryRun with hdry | hdry
        · rw [upload_dry_would c hash info retries script st hdry h1 h2 h3]
          refine ⟨?_, by simpa using hD, by simp⟩
          simp only [pipelineOutcomes] at hP ⊢
          simp
          omega
        · rw [upload_live_reduce c hash info retries script st hdry h1 h2 h3]
          obtain ⟨hs1, hs2, hs3⟩ := send_outcomes c retries script
            (contentStep c hash info st).2.1
          refine ⟨by dsimp only; omega, by dsimp only; omega, ?_⟩
          intro hr
          dsimp only at hr ⊢
          exact hs3 hr

theorem runRedo_outcomes (c : CollectorConfig) (hash : List UInt8 → List UInt8)
    (info : FileDesc) :
    ∀ (fuel retries : Nat) (script : List ServerResponse) (st : WorkerState),
      script.length + (maxRetries + 1 - retries) + 1 ≤ fuel →
      pipelineOutcomes (runRedo c hash info fuel retries script st).1.stats =
        pipelineOutcomes st.stats + 1 ∧
      (runRedo c hash info fuel retries script st).1.stats.filesDiscovered =
        st.stats.filesDiscovered := by
  intro fuel
  induction fuel with
  | zero => intro retries script st h; omega
  | succ f ih =>
    intro retries script st h
    obtain ⟨hu1, hu2, hu3⟩ := upload_outcomes c hash info retries script st
    rcases Bool.eq_false_or_eq_true (uploadToThunderstorm c hash info retries script st).1
      with hredo | hredo
    · have hmeas := hu3 hredo
      simp only [runRedo, hredo, if_true]
      obtain ⟨ih1, ih2⟩ := ih (uploadToThunderstorm c hash info retries script st).2.1
        (uploadToThunderstorm c hash info retries script st).2.2.1
        (uploadToThunderstorm c hash info retries script st).2.2.2.1 (by omega)
      rw [hredo] at hu1
      simp only [if_true] at hu1
      exact ⟨by rw [ih1]; omega, by rw [ih2, hu2]⟩
    · simp only [runRedo, hredo, Bool.false_eq_true, if_false]
      rw [hredo] at hu1
      simp only [Bool.false_eq_true, if_false] at hu1
      exact ⟨by omega, hu2⟩

theorem processQueue_outcomes (c : CollectorConfig) (hash : List UInt8 → List UInt8) :
    ∀ (queue : List FileDesc) (script : List ServerResponse) (st : WorkerState),
      pipelineOutcomes (processQueue c hash queue script st).1.stats =
        pipelineOutcomes st.stats + queue.length ∧
      (processQueue c hash queue script st).1.stats.filesDiscovered =
        st.stats.filesDiscovered := by
  intro queue
  induction queue with
  | nil => intro script st; simp [processQueue_nil]
  | cons fd rest ih =>
    intro script st
    have hmr : maxRetries = 3 := rfl
    obtain ⟨h1, h2⟩ := runRedo_outcomes c hash fd (pipelineFuel script) 0 script st
      (by simp only [pipelineFuel, hmr]; omega)
    obtain ⟨ih1, ih2⟩ := ih (processFile c hash fd script st).2.1
      (processFile c hash fd script st).1
    rw [processQueue_cons]
    simp only
    constructor
    · rw [ih1]
      show pipelineOutcomes (runRedo c hash fd (pipelineFuel script) 0 script st).1.stats
          + _ = _
      rw [h1]
      simp [List.length_cons]
      omega
    · rw [ih2]
      exact h2

mutual

theorem walkNode_accounting (c : CollectorConfig) (node : FsNode)
    (s : CollectionStatistics) :
    pipelineOutcomes (walkNode c node s).1 + (walkNode c node s).2.length +
        s.filesDiscovered =
      pipelineOutcomes s + (walkNode c node s).1.filesDiscovered := by
  match node with
  | FsNode.file info excludeGlobMatch walkError =>
    unfold walkNode
    obtain ⟨hq1, hq2⟩ := metadata_quick_outcomes c info.meta
      { s with filesDiscovered := s.filesDiscovered + 1 }
    rcases Bool.eq_false_or_eq_true walkError with hw | hw
    · simp [hw]
    · rcases Bool.eq_false_or_eq_true excludeGlobMatch with hg | hg
      · simp only [hw, hg, Bool.false_eq_true, if_false, if_true]
        simp [pipelineOutcomes]
      · rcases Bool.eq_false_or_eq_true
          (isFileExcludedDueToMetadataQuick c info.meta
            { s with filesDiscovered := s.filesDiscovered + 1 }).1 with hq | hq
        · rw [hq] at hq1
          simp only [if_true] at hq1
          simp only [hw, hg, hq, Bool.false_eq_true, if_false, if_true]
          simp only [List.length_nil]
          simp only [pipelineOutcomes] at hq1 ⊢
          try simp at hq1 hq2 ⊢
          omega
        · rw [hq] at hq1
          simp only [Bool.false_eq_true, if_false] at hq1
          simp only [hw, hg, hq, Bool.false_eq_true, if_false, if_true]
          simp only [List.length_cons, List.length_nil]
          simp only [pipelineOutcomes] at hq1 ⊢
          try simp at hq1 hq2 ⊢
          omega
  | FsNode.dir excludeGlobMatch onSkippedFilesystem walkError children =>
    unfold walkNode
    rcases Bool.eq_false_or_eq_true walkError with hw | hw
    · simp [hw]
    · rcases Bool.eq_false_or_eq_true excludeGlobMatch with hg | hg
      · simp only [hw, hg, Bool.false_eq_true, if_false, if_true]
        simp [pipelineOutcomes]
      · rcases Bool.eq_false_or_eq_true (!c.allFilesystems && onSkippedFilesystem)
          with hf | hf
        · simp only [hw, hg, hf, Bool.false_eq_true, if_false, if_true]
          simp
        · simp only [hw, hg, hf, Bool.false_eq_true, if_false, if_true]
          exact walkNodes_accounting c children s

theorem walkNodes_accounting (c : CollectorConfig) (nodes : List FsNode)
    (s : CollectionStatistics) :
    pipelineOutcomes (walkNodes c nodes s).1 + (walkNodes c nodes s).2.length +
        s.filesDiscovered =
      pipelineOutcomes s + (walkNodes c nodes s).1.filesDiscovered := by
  match nodes with
  | [] =>
    unfold walkNodes
    simp
  | node :: rest =>
    unfold walkNodes
    have hnode := walkNode_accounting c node s
    have hrest := walkNodes_accounting c rest (walkNode c node s).1
    simp only [List.length_append]
    omega

end

/-- C4, counterexample: a run over a single glob-excluded file increments
the excluded-by-glob counter without incrementing `filesDiscovered`, so
`uploaded + sum over all skip reasons + errors` is 1 while `discovered` is 0:
with glob and directory skips included in the sum, the claimed equation
fails. -/
theorem claim_C4_counterexample :
    ¬((collect plainConfig sampleHash [FsNode.file smallFile true false]
          []).1.stats.uploadedFiles +
        ((collect plainConfig sampleHash [FsNode.file smallFile true false]
            []).1.stats.skippedTooBig +
          (collect plainConfig sampleHash [FsNode.file smallFile true false]
            []).1.stats.skippedTooOld +
          (collect plainConfig sampleHash [FsNode.file smallFile true false]
            []).1.stats.skippedWrongType +
          (collect plainConfig sampleHash [FsNode.file smallFile true false]
            []).1.stats.skippedIrregular +
          (collect plainConfig sampleHash [FsNode.file smallFile true false]
            []).1.stats.skippedDuplicate +
          (collect plainConfig sampleHash [FsNode.file smallFile true false]
            []).1.stats.skippedExcluded +
          (collect plainConfig sampleHash [FsNode.file smallFile true false]
            []).1.stats.skippedDirectories) +
        ((collect plainConfig sampleHash [FsNode.file smallFile true false]
            []).1.stats.uploadErrors +
          (collect plainConfig sampleHash [FsNode.file smallFile true false]
            []).1.stats.fileErrors) =
      (collect plainConfig sampleHash [FsNode.file smallFile true false]
        []).1.stats.filesDiscovered) := by
  decide

/-- C4, amended: at the end of every run (walk finished, queue drained), the
statistics satisfy `uploaded + sum of the per-file pipeline skip reasons
(too-big, too-old, wrong-type, irregular, duplicate) + upload-errors +
file-errors = filesDiscovered`; glob-excluded files and pruned directories
are counted in their own counters and are not part of `filesDiscovered`,
and every non-pruned, non-excluded walk unit increments exactly one of these
counters. -/
theorem claim_C4_amended (c : CollectorConfig) (hash : List UInt8 → List UInt8)
    (roots : List FsNode) (script : List ServerResponse) :
    pipelineOutcomes (collect c hash roots script).1.stats =
      (collect c hash roots script).1.stats.filesDiscovered := by
  unfold collect
  have hwalk := walkNodes_accounting c roots {}
  obtain ⟨hq1, hq2⟩ := processQueue_outcomes c hash (walkNodes c roots {}).2 script
    { stats := (walkNodes c roots {}).1, fileHashCache := [], fileHashCacheCount := 0 }
  simp only at hq1 hq2
  rw [hq1, hq2]
  simp only [pipelineOutcomes] at *
  simp [CollectionStatistics.filesDiscovered] at hwalk
  omega

end Thunderstorm
